import Mathlib

/-
Verification of the toy algebraic-effects interpreter and its fixed-point
compilation driver (src/main.rs).

Modelling conventions:
* Machine integers: `usize` quantities (log length, document size) are `Nat`;
  `i64` results are `Int` via coercion.  The `try_into().unwrap()` conversions
  from `usize` to `i64` cannot fail on reachable inputs and are modelled as
  exact coercions.
* `HashMap<Variable, Value>` is modelled as an association list with
  first-occurrence lookup; `insert` overwrites the first occurrence in place
  (or appends), `erase` removes the first occurrence, mirroring the map
  semantics of the source.
* The interpreter is total in Lean via a fuel parameter: a result of `none`
  means "no normal return" (divergence or a Rust panic such as the todo stub
  in the content builtin or the division by zero in the percent builtin).
* `interpret` takes `&mut Context`; the embedding threads the context value
  through and returns it, so statements about (non-)mutation of the caller's
  environment can be made.  Errors propagate via first-failure-wins exactly
  as the `?` operator does in the source; since no caller inspects the host
  state after an error, the error result does not carry a state.
* The builtin functions installed by the source are a closed set
  (content, location, size, percent); they are defunctionalized into the
  `BuiltinName` tag and the `applyBuiltin` dispatch below, transcribed from
  the closures in the source's initialization function.
-/

namespace ToyEff

/-- The four builtin functions installed by the source's initialization. -/
inductive BuiltinName where
  | content
  | location
  | size
  | percent

mutual

/-- Rust enum Ast.  The source's Variable arm is named var here because
variable is a Lean keyword; Const is const, Cond is cond. -/
inductive Ast where
  | lambda (boundVar : String) (body : Ast)
  | fix
  | application (f : Ast) (x : Ast)
  | var (v : String)
  | const (val : Value)
  | cond (c : Ast) (t : Ast) (e : Ast)

/-- Rust enum Value.  BuiltinFunction carries the name tag of one of the four
installed builtins; BuiltinValue is an opaque host value (never constructed by
the program, kept for faithfulness with an opaque numeric tag); Function is
the closure variant carrying the captured environment. -/
inductive Value where
  | fix
  | builtinFunction (name : BuiltinName)
  | builtinValue (tag : Nat)
  | function (closureContext : List (String × Value)) (boundVar : String) (body : Ast)
  | bool (b : Bool)
  | int (i : Int)
  | string (s : String)

end

/-- Rust struct Context(HashMap<Variable, Value>), as an association list. -/
abbrev Context := List (String × Value)

/-- Rust enum Error. -/
inductive Error where
  | notInScope (v : String)
  | notACallableValue (val : Value)
  | notABoolValue (val : Value)

/-- Rust struct State: the host state with the append-only log and the
document-size parameter. -/
structure State where
  content : List String
  document_size : Nat

namespace Context

/-- Rust Context::new. -/
def new : Context := []

/-- Rust Context::lookup: HashMap::get, i.e. the binding of the key. -/
def lookup : Context → String → Option Value
  | [], _ => none
  | (k, w) :: rest, v => if k = v then some w else lookup rest v

/-- HashMap::insert: overwrite the (first) occurrence of the key in place,
keeping the existing key, or append a new binding.  Used both by the
initialization insert (whose duplicate-key assertion never fires there) and
by with_var. -/
def insert : Context → String → Value → Context
  | [], v, val => [(v, val)]
  | (k, w) :: rest, v, val =>
    if k = v then (k, val) :: rest else (k, w) :: insert rest v val

/-- HashMap::remove: drop the (first) occurrence of the key. -/
def erase : Context → String → Context
  | [], _ => []
  | (k, w) :: rest, v => if k = v then rest else (k, w) :: erase rest v

/-- Rust Context::with_var: save the previous binding of var (what
HashMap::insert returns), install value, run func, then reinstall the saved
value or remove the key, on every exit path.  func is the pure form of
FnOnce(&mut Context) -> T, returning the value together with the context it
leaves behind. -/
def with_var {T : Type} (ctx : Context) (v : String) (value : Value)
    (func : Context → T × Context) : T × Context :=
  let maybe_save := lookup ctx v
  let r := func (insert ctx v value)
  match maybe_save with
  | some save => (r.1, insert r.2 v save)
  | none => (r.1, erase r.2 v)

end Context

/-- Result type of one interpreter call: `none` is "no normal return"
(divergence / panic), `some` carries the Result<Value, Error> of the source,
with the state threaded through the success case. -/
abbrev EvalResult := Option (Except Error (Value × State))

/-- The bodies of the four builtin closures installed by the source's
initialization function.  content pushes its string argument and returns it
(the todo stub on non-strings is a panic, modelled as none); location returns
the log length; size returns the document-size parameter; percent divides the
log length by the parameter (the Rust i64 division of two nonnegative values,
i.e. Nat division; division by zero panics, modelled as none). -/
def applyBuiltin (name : BuiltinName) (input : Value) (state : State) : EvalResult :=
  match name with
  | .content =>
    match input with
    | .string s =>
        some (.ok (.string s, { state with content := state.content ++ [s] }))
    | _ => none
  | .location => some (.ok (.int (state.content.length : Int), state))
  | .size => some (.ok (.int (state.document_size : Int), state))
  | .percent =>
    if state.document_size = 0 then none
    else some (.ok (.int ((state.content.length / state.document_size : Nat) : Int), state))

/-- Rust fn interpret, with a fuel parameter making the recursion total.
Returns the evaluation result together with the final value of the mutable
context reference the caller passed in. -/
def interpret (fuel : Nat) (ast : Ast) (context : Context) (state : State) :
    EvalResult × Context :=
  match fuel with
  | 0 => (none, context)
  | n + 1 =>
    match ast with
    | .lambda bound_var body =>
        (some (.ok (.function context bound_var body, state)), context)
    | .fix => (some (.ok (.fix, state)), context)
    | .application f x =>
      match interpret n x context state with
      | (some (.ok (arg, st1)), ctx1) =>
        match interpret n f ctx1 st1 with
        | (some (.ok (fval, st2)), ctx2) =>
          match fval with
          | .builtinFunction name => (applyBuiltin name arg st2, ctx2)
          | .function closure_context bound_var body =>
              ((Context.with_var closure_context bound_var arg
                  (fun c => interpret n body c st2)).1, ctx2)
          | .fix =>
              interpret n (.application (.const arg) (.application f x)) ctx2 st2
          | val => (some (.error (.notACallableValue val)), ctx2)
        | (some (.error e), ctx2) => (some (.error e), ctx2)
        | (none, ctx2) => (none, ctx2)
      | (some (.error e), ctx1) => (some (.error e), ctx1)
      | (none, ctx1) => (none, ctx1)
    | .var v =>
      match Context.lookup context v with
      | some out => (some (.ok (out, state)), context)
      | none => (some (.error (.notInScope v)), context)
    | .const val => (some (.ok (val, state)), context)
    | .cond c t e =>
      match interpret n c context state with
      | (some (.ok (.bool b, st1)), ctx1) =>
          interpret n (if b then t else e) ctx1 st1
      | (some (.ok (val, _)), ctx1) =>
          (some (.error (.notABoolValue val)), ctx1)
      | (some (.error e'), ctx1) => (some (.error e'), ctx1)
      | (none, ctx1) => (none, ctx1)

/-- Rust fn initialize: fresh state with the given expected document size and
an empty log, and the environment with the two boolean constants and the four
builtin functions inserted in source order. -/
def initializeEnv (expected_document_size : Nat) : Context × State :=
  let state : State := { content := [], document_size := expected_document_size }
  let context := Context.new
  let context := Context.insert context "true" (.bool true)
  let context := Context.insert context "false" (.bool false)
  let context := Context.insert context "content" (.builtinFunction .content)
  let context := Context.insert context "location" (.builtinFunction .location)
  let context := Context.insert context "size" (.builtinFunction .size)
  let context := Context.insert context "percent" (.builtinFunction .percent)
  (context, state)

/-- The loop of Rust fn compile, with the remaining iteration count, the
current document_size and the previous pass's log (None before the first
pass) explicit.  When the count is exhausted the source returns
Ok(out.unwrap()); the unwrap panic on a None log is modelled as none
(unreachable from compile itself, whose count is 5). -/
def compileAux (fuel : Nat) (ast : Ast) :
    Nat → Nat → Option (List String) → Option (Except Error (List String))
  | 0, _, out =>
    match out with
    | some l => some (.ok l)
    | none => none
  | n + 1, document_size, out =>
    let (context, state) := initializeEnv document_size
    match (interpret fuel ast context state).1 with
    | none => none
    | some (.error e) => some (.error e)
    | some (.ok (_, state')) =>
      let new_out := state'.content
      if out = some new_out then some (.ok new_out)
      else compileAux fuel ast n state'.document_size (some new_out)

/-- Rust fn compile: at most 5 passes, document_size starts at 0 and the
previous log starts absent. -/
def compile (fuel : Nat) (ast : Ast) : Option (Except Error (List String)) :=
  compileAux fuel ast 5 0 none

/-- compileAux instrumented with the number of evaluation passes actually
performed; its first component coincides with compileAux. -/
def compileAuxSteps (fuel : Nat) (ast : Ast) :
    Nat → Nat → Option (List String) → Option (Except Error (List String)) × Nat
  | 0, _, out =>
    (match out with
     | some l => some (.ok l)
     | none => none, 0)
  | n + 1, document_size, out =>
    let (context, state) := initializeEnv document_size
    match (interpret fuel ast context state).1 with
    | none => (none, 1)
    | some (.error e) => (some (.error e), 1)
    | some (.ok (_, state')) =>
      let new_out := state'.content
      if out = some new_out then (some (.ok new_out), 1)
      else
        let (r, k) := compileAuxSteps fuel ast n state'.document_size (some new_out)
        (r, k + 1)

/-- A program on which the interpreter never returns normally, at any fuel. -/
def InterpDiverges (ast : Ast) (context : Context) (state : State) : Prop :=
  ∀ fuel, (interpret fuel ast context state).1 = none

/-- A program on which compile never returns, at any fuel. -/
def CompileDiverges (ast : Ast) : Prop :=
  ∀ fuel, compile fuel ast = none


/-- A factorial-style recursive program: the fixpoint primitive applied to a
function of self and the argument, the whole applied to 3.  The body is never
reached by evaluation (see the fixpoint theorems below), so only its shape
matters. -/
def factBody : Ast :=
  .lambda "self" (.lambda "n"
    (.cond (.var "n") (.const (.int 1))
      (.application (.application (.var "self") (.var "self")) (.var "n"))))

def factProgram : Ast :=
  .application (.application .fix factBody) (.const (.int 3))

/-- A program evaluating to a closure created while the variable x was
temporarily bound to k: applying a two-argument constant function to k. -/
def mkClosUnder (k : Int) : Ast :=
  .application (.lambda "x" (.lambda "d" (.var "x"))) (.const (.int k))

/-- Create a closure under the binding x = 1, then rebind x to 2 in the
enclosing scope and apply the closure there: copy semantics of capture must
yield 1, a live alias would yield 2. -/
def captureIsolation : Ast :=
  .application
    (.lambda "h" (.application (.lambda "x" (.application (.var "h") (.const (.bool true))))
      (.const (.int 2))))
    (mkClosUnder 1)

/-- Probe for evaluation order of Application: both the function expression
and the argument expression call the side-effecting content builtin, so the
final log records which side ran first. -/
def orderProbe : Ast :=
  .application
    (.application (.lambda "u" (.lambda "w" (.var "w")))
      (.application (.var "content") (.const (.string "F"))))
    (.application (.var "content") (.const (.string "A")))

/-- content applied to the string x, the result fed to location. -/
def contentThenLocation : Ast :=
  .application (.var "location") (.application (.var "content") (.const (.string "x")))

/-- A with_var body that permanently inserts a binding for a different key. -/
def insertOtherKey : Context → Unit × Context :=
  fun c => ((), Context.insert c "y" (.int 1))

/-- A with_var body that exits with an evaluation error, leaving the context
it received untouched. -/
def errorReturningBody : Context → Except Error Value × Context :=
  fun c => (.error (.notInScope "w"), c)

end ToyEff

namespace ToyEff

/-! ### Helper lemmas about the environment operations -/

theorem lookup_insert_self (ctx : Context) (v : String) (val : Value) :
    Context.lookup (Context.insert ctx v val) v = some val := by
  induction ctx with
  | nil => simp [Context.insert, Context.lookup]
  | cons p rest ih =>
    obtain ⟨k, w⟩ := p
    by_cases h : k = v
    · simp [Context.insert, Context.lookup, h]
    · simp [Context.insert, Context.lookup, h, ih]

theorem insert_insert_cancel (ctx : Context) (v : String) (val save : Value)
    (h : Context.lookup ctx v = some save) :
    Context.insert (Context.insert ctx v val) v save = ctx := by
  induction ctx with
  | nil => simp [Context.lookup] at h
  | cons p rest ih =>
    obtain ⟨k, w⟩ := p
    by_cases hp : k = v
    · simp [Context.lookup, hp] at h
      simp [Context.insert, hp, h]
    · simp [Context.lookup, hp] at h
      simp [Context.insert, hp, ih h]

theorem erase_insert_cancel (ctx : Context) (v : String) (val : Value)
    (h : Context.lookup ctx v = none) :
    Context.erase (Context.insert ctx v val) v = ctx := by
  induction ctx with
  | nil => simp [Context.insert, Context.erase]
  | cons p rest ih =>
    obtain ⟨k, w⟩ := p
    by_cases hp : k = v
    · simp [Context.lookup, hp] at h
    · simp [Context.lookup, hp] at h
      simp [Context.insert, Context.erase, hp, ih h]

theorem with_var_of_preserving {T : Type} (ctx : Context) (v : String) (val : Value)
    (func : Context → T × Context) (hfunc : ∀ c, (func c).2 = c) :
    Context.with_var ctx v val func = ((func (Context.insert ctx v val)).1, ctx) := by
  unfold Context.with_var
  cases h : Context.lookup ctx v with
  | none => simp [hfunc, erase_insert_cancel ctx v val h]
  | some save => simp [hfunc, insert_insert_cancel ctx v val save h]

theorem with_var_fst {T : Type} (ctx : Context) (v : String) (val : Value)
    (func : Context → T × Context) :
    (Context.with_var ctx v val func).1 = (func (Context.insert ctx v val)).1 := by
  unfold Context.with_var
  cases Context.lookup ctx v <;> rfl

/-! ### Helper lemmas about the interpreter -/

theorem interpret_context_eq (fuel : Nat) :
    ∀ (ast : Ast) (ctx : Context) (st : State), (interpret fuel ast ctx st).2 = ctx := by
  induction fuel with
  | zero => intro ast ctx st; rfl
  | succ n ih =>
    intro ast ctx st
    cases ast with
    | lambda p b => rfl
    | fix => rfl
    | var v =>
      simp only [interpret]
      cases Context.lookup ctx v <;> rfl
    | const val => rfl
    | application f x =>
      simp only [interpret]
      have hx := (Prod.mk.eta (p := interpret n x ctx st)).symm
      rw [ih x ctx st] at hx
      rw [hx]
      cases (interpret n x ctx st).1 with
      | none => rfl
      | some ex =>
        cases ex with
        | error e => rfl
        | ok p =>
          obtain ⟨arg, st1⟩ := p
          dsimp only
          have hf := (Prod.mk.eta (p := interpret n f ctx st1)).symm
          rw [ih f ctx st1] at hf
          rw [hf]
          cases (interpret n f ctx st1).1 with
          | none => rfl
          | some ef =>
            cases ef with
            | error e => rfl
            | ok q =>
              obtain ⟨fval, st2⟩ := q
              cases fval with
              | builtinFunction name => rfl
              | function cctx pp bb => rfl
              | fix => exact ih _ ctx st2
              | builtinValue tg => rfl
              | bool b => rfl
              | int i => rfl
              | string s => rfl
    | cond c t e =>
      simp only [interpret]
      have hc := (Prod.mk.eta (p := interpret n c ctx st)).symm
      rw [ih c ctx st] at hc
      rw [hc]
      cases (interpret n c ctx st).1 with
      | none => rfl
      | some ec =>
        cases ec with
        | error e' => rfl
        | ok p =>
          obtain ⟨val, st1⟩ := p
          cases val with
          | bool b => exact ih _ ctx st1
          | fix => rfl
          | builtinFunction name => rfl
          | builtinValue tg => rfl
          | function cc pp bb => rfl
          | int i => rfl
          | string s => rfl

theorem applyBuiltin_document_size (name : BuiltinName) (input : Value) (st : State)
    (v : Value) (st' : State) (h : applyBuiltin name input st = some (.ok (v, st'))) :
    st'.document_size = st.document_size := by
  cases name with
  | content =>
    cases input <;> simp [applyBuiltin] at h
    obtain ⟨-, h2⟩ := h
    rw [← h2]
  | location => simp [applyBuiltin] at h; rw [← h.2]
  | size => simp [applyBuiltin] at h; rw [← h.2]
  | percent =>
    by_cases hz : st.document_size = 0 <;> simp [applyBuiltin, hz] at h
    rw [← h.2]

theorem interpret_document_size_eq (fuel : Nat) :
    ∀ (ast : Ast) (ctx : Context) (st : State) (v : Value) (st' : State),
      (interpret fuel ast ctx st).1 = some (.ok (v, st')) →
      st'.document_size = st.document_size := by
  induction fuel with
  | zero => intro ast ctx st v st' h; simp [interpret] at h
  | succ n ih =>
    intro ast ctx st
    cases ast with
    | lambda p b =>
      intro v st' h
      simp only [interpret] at h
      obtain ⟨-, h2⟩ := by exact Prod.mk.injEq .. ▸ (Except.ok.inj (Option.some.inj h))
      rw [← h2]
    | fix =>
      intro v st' h
      simp only [interpret] at h
      obtain ⟨-, h2⟩ := by exact Prod.mk.injEq .. ▸ (Except.ok.inj (Option.some.inj h))
      rw [← h2]
    | var w =>
      intro v st' h
      simp only [interpret] at h
      cases hl : Context.lookup ctx w with
      | some out =>
        rw [hl] at h
        obtain ⟨-, h2⟩ := by exact Prod.mk.injEq .. ▸ (Except.ok.inj (Option.some.inj h))
        rw [← h2]
      | none => rw [hl] at h; simp at h
    | const val =>
      intro v st' h
      simp only [interpret] at h
      obtain ⟨-, h2⟩ := by exact Prod.mk.injEq .. ▸ (Except.ok.inj (Option.some.inj h))
      rw [← h2]
    | application f x =>
      simp only [interpret]
      cases hx : interpret n x ctx st with
      | mk rx cx =>
        cases rx with
        | none => intro v st' h; simp at h
        | some ex =>
          cases ex with
          | error e => intro v st' h; simp at h
          | ok p =>
            obtain ⟨arg, st1⟩ := p
            have hst1 : st1.document_size = st.document_size := by
              apply ih x ctx st arg st1; rw [hx]
            dsimp only
            cases hf : interpret n f cx st1 with
            | mk rf cf =>
              cases rf with
              | none => intro v st' h; simp at h
              | some ef =>
                cases ef with
                | error e => intro v st' h; simp at h
                | ok q =>
                  obtain ⟨fval, st2⟩ := q
                  have hst2 : st2.document_size = st1.document_size := by
                    apply ih f cx st1 fval st2; rw [hf]
                  cases fval with
                  | builtinFunction name =>
                    intro v st' h
                    dsimp only at h
                    have := applyBuiltin_document_size name arg st2 v st' h
                    omega
                  | function cctx pp bb =>
                    intro v st' h
                    dsimp only at h
                    rw [with_var_fst] at h
                    have := ih bb (Context.insert cctx pp arg) st2 v st' h
                    omega
                  | fix =>
                    intro v st' h
                    dsimp only at h
                    have := ih (.application (.const arg) (.application f x)) cf st2 v st' h
                    omega
                  | builtinValue tg => intro v st' h; simp at h
                  | bool b => intro v st' h; simp at h
                  | int i => intro v st' h; simp at h
                  | string s => intro v st' h; simp at h
    | cond c t e =>
      simp only [interpret]
      cases hc : interpret n c ctx st with
      | mk rc cc =>
        cases rc with
        | none => intro v st' h; simp at h
        | some ec =>
          cases ec with
          | error e' => intro v st' h; simp at h
          | ok p =>
            obtain ⟨val, st1⟩ := p
            cases val with
            | bool b =>
              intro v st' h
              dsimp only at h
              have hst1 : st1.document_size = st.document_size := by
                apply ih c ctx st (.bool b) st1; rw [hc]
              have := ih (if b then t else e) cc st1 v st' h
              omega
            | fix => intro v st' h; simp at h
            | builtinFunction name => intro v st' h; simp at h
            | builtinValue tg => intro v st' h; simp at h
            | function cc2 pp bb => intro v st' h; simp at h
            | int i => intro v st' h; simp at h
            | string s => intro v st' h; simp at h

/-! ### One-step equations for the Application arm -/

theorem interpret_application_x_none (n : Nat) (f x : Ast) (ctx : Context) (st : State)
    (hx : (interpret n x ctx st).1 = none) :
    (interpret (n + 1) (.application f x) ctx st).1 = none := by
  simp only [interpret]
  have hpair := (Prod.mk.eta (p := interpret n x ctx st)).symm
  rw [hx] at hpair
  rw [hpair]

theorem interpret_application_x_error (n : Nat) (f x : Ast) (ctx : Context) (st : State)
    (e : Error) (hx : (interpret n x ctx st).1 = some (.error e)) :
    (interpret (n + 1) (.application f x) ctx st).1 = some (.error e) := by
  simp only [interpret]
  have hpair := (Prod.mk.eta (p := interpret n x ctx st)).symm
  rw [hx] at hpair
  rw [hpair]

theorem interpret_application_fn_none (n : Nat) (f x : Ast) (ctx : Context) (st : State)
    (arg : Value) (st1 : State) (ctx1 : Context)
    (hx : interpret n x ctx st = (some (.ok (arg, st1)), ctx1))
    (hf : (interpret n f ctx1 st1).1 = none) :
    (interpret (n + 1) (.application f x) ctx st).1 = none := by
  simp only [interpret]
  rw [hx]
  dsimp only
  have hpair := (Prod.mk.eta (p := interpret n f ctx1 st1)).symm
  rw [hf] at hpair
  rw [hpair]

theorem interpret_application_fn_error (n : Nat) (f x : Ast) (ctx : Context) (st : State)
    (arg : Value) (st1 : State) (ctx1 : Context) (e : Error)
    (hx : interpret n x ctx st = (some (.ok (arg, st1)), ctx1))
    (hf : (interpret n f ctx1 st1).1 = some (.error e)) :
    (interpret (n + 1) (.application f x) ctx st).1 = some (.error e) := by
  simp only [interpret]
  rw [hx]
  dsimp only
  have hpair := (Prod.mk.eta (p := interpret n f ctx1 st1)).symm
  rw [hf] at hpair
  rw [hpair]

theorem interpret_application_fix_step (n : Nat) (f x : Ast) (ctx : Context) (st : State)
    (arg : Value) (st1 st2 : State) (ctx1 ctx2 : Context)
    (hx : interpret n x ctx st = (some (.ok (arg, st1)), ctx1))
    (hf : interpret n f ctx1 st1 = (some (.ok (.fix, st2)), ctx2)) :
    interpret (n + 1) (.application f x) ctx st =
      interpret n (.application (.const arg) (.application f x)) ctx2 st2 := by
  simp only [interpret]
  rw [hx]
  dsimp only
  rw [hf]

/-! ### Divergence of the fixpoint primitive -/

theorem fix_application_none :
    ∀ (n : Nat) (p : String) (b : Ast) (ctx : Context) (st : State),
      (interpret n (.application .fix (.lambda p b)) ctx st).1 = none := by
  intro n
  induction n using Nat.strong_induction_on with
  | _ n ih =>
    match n with
    | 0 => intro p b ctx st; rfl
    | 1 => intro p b ctx st; rfl
    | (m+2) =>
      intro p b ctx st
      rw [interpret_application_fix_step (m+1) .fix (.lambda p b) ctx st
        (.function ctx p b) st st ctx ctx rfl rfl]
      exact interpret_application_x_none m _ _ ctx st (ih m (by omega) p b ctx st)

theorem factProgram_interpret_none :
    ∀ (n : Nat) (ctx : Context) (st : State),
      (interpret n factProgram ctx st).1 = none := by
  intro n
  match n with
  | 0 => intro ctx st; rfl
  | (m+1) =>
    intro ctx st
    match m with
    | 0 => rfl
    | (k+1) =>
      exact interpret_application_fn_none (k+1) (.application .fix factBody)
        (.const (.int 3)) ctx st (.int 3) st ctx rfl
        (fix_application_none (k+1) "self" _ ctx st)

/-! ### Helper lemmas about the fixed-point driver -/

theorem initializeEnv_eta (d : Nat) :
    initializeEnv d = ((initializeEnv d).1, (initializeEnv d).2) := (Prod.mk.eta).symm

theorem compileAux_interp_none (fuel : Nat) (ast : Ast) (n d : Nat)
    (out : Option (List String))
    (h : (interpret fuel ast (initializeEnv d).1 (initializeEnv d).2).1 = none) :
    compileAux fuel ast (n + 1) d out = none := by
  simp only [compileAux]
  rw [initializeEnv_eta d]
  dsimp only
  rw [h]

theorem compileAux_interp_error (fuel : Nat) (ast : Ast) (n d : Nat)
    (out : Option (List String)) (e : Error)
    (h : (interpret fuel ast (initializeEnv d).1 (initializeEnv d).2).1 = some (.error e)) :
    compileAux fuel ast (n + 1) d out = some (.error e) := by
  simp only [compileAux]
  rw [initializeEnv_eta d]
  dsimp only
  rw [h]

theorem compileAux_converged (fuel : Nat) (ast : Ast) (n d : Nat) (L : List String)
    (v : Value) (st' : State)
    (h : (interpret fuel ast (initializeEnv d).1 (initializeEnv d).2).1 = some (.ok (v, st')))
    (hL : st'.content = L) :
    compileAux fuel ast (n + 1) d (some L) = some (.ok L) := by
  subst hL
  simp only [compileAux]
  rw [initializeEnv_eta d]
  dsimp only
  rw [h]
  simp

theorem compileAux_step (fuel : Nat) (ast : Ast) (n d : Nat)
    (out : Option (List String)) (v : Value) (st' : State)
    (h : (interpret fuel ast (initializeEnv d).1 (initializeEnv d).2).1 = some (.ok (v, st')))
    (hne : out ≠ some st'.content) :
    compileAux fuel ast (n + 1) d out =
      compileAux fuel ast n st'.document_size (some st'.content) := by
  simp only [compileAux]
  rw [initializeEnv_eta d]
  dsimp only
  rw [h]
  simp [hne]

theorem compileAuxSteps_fst (fuel : Nat) (ast : Ast) :
    ∀ (n d : Nat) (out : Option (List String)),
      (compileAuxSteps fuel ast n d out).1 = compileAux fuel ast n d out := by
  intro n
  induction n with
  | zero => intro d out; cases out <;> rfl
  | succ n ih =>
    intro d out
    simp only [compileAuxSteps, compileAux]
    rw [initializeEnv_eta d]
    dsimp only
    cases hr : (interpret fuel ast (initializeEnv d).1 (initializeEnv d).2).1 with
    | none => rfl
    | some er =>
      cases er with
      | error e => rfl
      | ok p =>
        obtain ⟨v, st'⟩ := p
        dsimp only
        by_cases hc : out = some st'.content
        · simp [hc]
        · simp only [if_neg hc]
          rw [(Prod.mk.eta (p := compileAuxSteps fuel ast n st'.document_size (some st'.content))).symm]
          dsimp only
          exact ih st'.document_size (some st'.content)

theorem compileAuxSteps_le (fuel : Nat) (ast : Ast) :
    ∀ (n d : Nat) (out : Option (List String)),
      (compileAuxSteps fuel ast n d out).2 ≤ n := by
  intro n
  induction n with
  | zero => intro d out; cases out <;> simp [compileAuxSteps]
  | succ n ih =>
    intro d out
    simp only [compileAuxSteps]
    rw [initializeEnv_eta d]
    dsimp only
    cases hr : (interpret fuel ast (initializeEnv d).1 (initializeEnv d).2).1 with
    | none => dsimp only; omega
    | some er =>
      cases er with
      | error e => simp
      | ok p =>
        obtain ⟨v, st'⟩ := p
        dsimp only
        by_cases hc : out = some st'.content
        · simp [hc]
        · simp only [if_neg hc]
          rw [(Prod.mk.eta (p := compileAuxSteps fuel ast n st'.document_size (some st'.content))).symm]
          dsimp only
          have := ih st'.document_size (some st'.content)
          omega

theorem factProgram_compile_none : CompileDiverges factProgram := by
  intro fuel
  show compileAux fuel factProgram 5 0 none = none
  exact compileAux_interp_none fuel factProgram 4 0 none
    (factProgram_interpret_none fuel _ _)

end ToyEff

namespace ToyEff

/-! ### Claim theorems -/

/-- C1: the fixed-point driver compile performs at most 5 evaluation passes,
starting with parameter 0 and previous log absent; as soon as a pass's log
equals the previous pass's log it stops and returns that log, and when the
budget is exhausted it returns the last computed log as a success. -/
theorem compile_budget_convergence_and_exhaustion :
    (∀ (fuel : Nat) (ast : Ast), compile fuel ast = compileAux fuel ast 5 0 none) ∧
    (∀ (fuel : Nat) (ast : Ast) (n d : Nat) (L : List String) (v : Value) (st' : State),
        (interpret fuel ast (initializeEnv d).1 (initializeEnv d).2).1 = some (.ok (v, st')) →
        st'.content = L →
        compileAux fuel ast (n + 1) d (some L) = some (.ok L)) ∧
    (∀ (fuel : Nat) (ast : Ast) (d : Nat) (L : List String),
        compileAux fuel ast 0 d (some L) = some (.ok L)) ∧
    (∀ (fuel : Nat) (ast : Ast) (n d : Nat) (out : Option (List String)),
        (compileAuxSteps fuel ast n d out).1 = compileAux fuel ast n d out) ∧
    (∀ (fuel : Nat) (ast : Ast), (compileAuxSteps fuel ast 5 0 none).2 ≤ 5) :=
  ⟨fun _ _ => rfl,
   fun fuel ast n d L v st' h hL => compileAux_converged fuel ast n d L v st' h hL,
   fun _ _ _ _ => rfl,
   fun fuel ast n d out => compileAuxSteps_fst fuel ast n d out,
   fun fuel ast => compileAuxSteps_le fuel ast 5 0 none⟩

/-- C1 witness: a pass of the constant program produces the empty log, equal
to a previous empty log, so the driver stops there with that log. -/
theorem compile_budget_convergence_and_exhaustion_witness :
    compileAux 1 (.const (.int 0)) 3 0 (some []) = some (.ok []) :=
  compile_budget_convergence_and_exhaustion.2.1 1 (.const (.int 0)) 2 0 [] (.int 0)
    ⟨[], 0⟩ rfl rfl

/-- C2 counterexample: for a body that permanently inserts a binding for a
different key, with_var does not leave the environment identical to its state
before the binding, so the claim's quantification over every body fails. -/
theorem with_var_arbitrary_body_counterexample :
    (Context.with_var Context.new "x" (.int 0) insertOtherKey).2 ≠ Context.new :=
  fun h => List.cons_ne_nil _ _ h

/-- C2 amended: with_var installs the value for the variable (the body runs
in the environment extended with it), and for every body that itself leaves
the environment as it found it — as every body the interpreter supplies does,
including nested uses of with_var to any depth — the environment afterwards
is identical to its state before the binding, the saved previous value being
reinstalled or the key removed, on every exit path including error returns
(the result type T is arbitrary, so the restore is oblivious to whether the
body's value is a success or an error). -/
theorem with_var_installs_and_restores {T : Type} (ctx : Context) (v : String)
    (val : Value) (body : Context → T × Context) (hbody : ∀ c, (body c).2 = c) :
    Context.lookup (Context.insert ctx v val) v = some val ∧
    Context.with_var ctx v val body = ((body (Context.insert ctx v val)).1, ctx) :=
  ⟨lookup_insert_self ctx v val, with_var_of_preserving ctx v val body hbody⟩

/-- C2 witness: a body exiting with an evaluation error, run under a binding
that shadows an existing one; the shadowed value is reinstalled. -/
theorem with_var_installs_and_restores_witness :
    Context.lookup (Context.insert [("x", Value.int 7)] "x" (.int 5)) "x" = some (.int 5) ∧
    Context.with_var [("x", Value.int 7)] "x" (.int 5) errorReturningBody =
      (.error (.notInScope "w"), [("x", Value.int 7)]) :=
  with_var_installs_and_restores [("x", Value.int 7)] "x" (.int 5) errorReturningBody
    (fun _ => rfl)

/-- C3: evaluating a Lambda captures the environment at creation time as a
copy: the produced closure carries exactly the current environment value, two
closures created under bindings of the same variable to 1 and to 2 observe
their own captured value when applied, and rebinding the variable in the
enclosing scope after a closure was created does not affect the closure. -/
theorem lambda_captures_environment_copy :
    (∀ (n : Nat) (p : String) (b : Ast) (ctx : Context) (st : State),
        interpret (n + 1) (.lambda p b) ctx st = (some (.ok (.function ctx p b, st)), ctx)) ∧
    (interpret 10 (.application (mkClosUnder 1) (.const (.bool true)))
        Context.new ⟨[], 0⟩).1 = some (.ok (.int 1, ⟨[], 0⟩)) ∧
    (interpret 10 (.application (mkClosUnder 2) (.const (.bool true)))
        Context.new ⟨[], 0⟩).1 = some (.ok (.int 2, ⟨[], 0⟩)) ∧
    (interpret 10 captureIsolation Context.new ⟨[], 0⟩).1 = some (.ok (.int 1, ⟨[], 0⟩)) :=
  ⟨fun _ _ _ _ _ => rfl, rfl, rfl, rfl⟩

/-- C4 counterexample: the factorial-style fixpoint program never produces a
value at any evaluation depth — the interpreter returns no normal result for
any fuel, and compile never returns — because the marker's expansion
re-evaluates the original application in argument position before the
argument function is ever invoked.  So the code does not behave as a
standard applicative fixpoint that unrolls 3 levels of a factorial-style
program. -/
theorem fix_marker_unrolling_counterexample :
    InterpDiverges factProgram (initializeEnv 0).1 (initializeEnv 0).2 ∧
    CompileDiverges factProgram :=
  ⟨fun fuel => factProgram_interpret_none fuel _ _, factProgram_compile_none⟩

/-- C4 amended: when an application resolves its function position to the
self-reference marker, evaluation continues by re-evaluating
Application(Const(argumentValue), originalApplication) — the already
evaluated argument applied to the whole original application; since
evaluation is argument-first, this re-enters the original application before
the argument function is invoked, so (per the counterexample) the unrolling
never completes on a factorial-style program. -/
theorem fix_marker_expansion_step (n : Nat) (f x : Ast) (ctx : Context) (st : State)
    (arg : Value) (st1 st2 : State) (ctx1 ctx2 : Context)
    (hx : interpret n x ctx st = (some (.ok (arg, st1)), ctx1))
    (hf : interpret n f ctx1 st1 = (some (.ok (.fix, st2)), ctx2)) :
    interpret (n + 1) (.application f x) ctx st =
      interpret n (.application (.const arg) (.application f x)) ctx2 st2 :=
  interpret_application_fix_step n f x ctx st arg st1 st2 ctx1 ctx2 hx hf

/-- C4 witness: the expansion equation at the application of the bare marker
to a literal. -/
theorem fix_marker_expansion_step_witness :
    interpret 2 (.application .fix (.const (.int 0))) Context.new ⟨[], 0⟩ =
      interpret 1 (.application (.const (.int 0)) (.application .fix (.const (.int 0))))
        Context.new ⟨[], 0⟩ :=
  fix_marker_expansion_step 1 .fix (.const (.int 0)) Context.new ⟨[], 0⟩ (.int 0)
    ⟨[], 0⟩ ⟨[], 0⟩ Context.new Context.new rfl rfl

/-- C5: the argument of an application is evaluated strictly before the
function expression is resolved: an error from the argument is returned
unchanged for every function expression (which is therefore not evaluated at
all), an error from the function side arises from the state the argument
produced, and the side-effect probe with content calls on both sides logs the
argument side's string before the function side's. -/
theorem application_argument_before_function :
    (∀ (n : Nat) (f x : Ast) (ctx : Context) (st : State) (e : Error),
        (interpret n x ctx st).1 = some (.error e) →
        (interpret (n + 1) (.application f x) ctx st).1 = some (.error e)) ∧
    (∀ (n : Nat) (f x : Ast) (ctx : Context) (st : State) (arg : Value) (st1 : State)
        (ctx1 : Context) (e : Error),
        interpret n x ctx st = (some (.ok (arg, st1)), ctx1) →
        (interpret n f ctx1 st1).1 = some (.error e) →
        (interpret (n + 1) (.application f x) ctx st).1 = some (.error e)) ∧
    (interpret 10 orderProbe (initializeEnv 0).1 (initializeEnv 0).2).1 =
      some (.ok (.string "A", ⟨["A", "F"], 0⟩)) :=
  ⟨fun n f x ctx st e h => interpret_application_x_error n f x ctx st e h,
   fun n f x ctx st arg st1 ctx1 e hx hf =>
     interpret_application_fn_error n f x ctx st arg st1 ctx1 e hx hf,
   rfl⟩

/-- C5 witness: an unbound-variable error in argument position propagates out
of the application with the function expression untouched. -/
theorem application_argument_before_function_witness :
    (interpret 2 (.application (.const (.int 0)) (.var "nope")) Context.new ⟨[], 0⟩).1 =
      some (.error (.notInScope "nope")) :=
  application_argument_before_function.1 1 (.const (.int 0)) (.var "nope") Context.new
    ⟨[], 0⟩ (.notInScope "nope") rfl

/-- C6: an evaluation error in any pass makes compile return that same error
immediately with no further iterations; evaluating the unbound variable
undefined_var in the freshly built environment yields NotInScope, and compile
of that program returns exactly that error. -/
theorem evaluation_errors_abort_compile :
    (∀ (fuel : Nat) (ast : Ast) (n d : Nat) (out : Option (List String)) (e : Error),
        (interpret fuel ast (initializeEnv d).1 (initializeEnv d).2).1 = some (.error e) →
        compileAux fuel ast (n + 1) d out = some (.error e)) ∧
    (∀ (n : Nat),
        (interpret (n + 1) (.var "undefined_var") (initializeEnv 0).1 (initializeEnv 0).2).1 =
          some (.error (.notInScope "undefined_var"))) ∧
    (∀ (fuel : Nat),
        compile (fuel + 1) (.var "undefined_var") =
          some (.error (.notInScope "undefined_var"))) :=
  ⟨fun fuel ast n d out e h => compileAux_interp_error fuel ast n d out e h,
   fun _ => rfl,
   fun fuel => compileAux_interp_error (fuel + 1) _ 4 0 none _ rfl⟩

/-- C6 witness: a NotInScope error in the first pass is compile's result. -/
theorem evaluation_errors_abort_compile_witness :
    compileAux 1 (.var "undefined_var") 5 0 none =
      some (.error (.notInScope "undefined_var")) :=
  evaluation_errors_abort_compile.1 1 (.var "undefined_var") 4 0 none
    (.notInScope "undefined_var") rfl

/-- C7: the content builtin appends its string argument to the log and
returns the same string; the location builtin ignores its argument and
returns the log length; calling content with x and feeding the result to
location yields Int 1 with log consisting of x. -/
theorem content_and_location_builtins :
    (∀ (s : String) (st : State),
        applyBuiltin .content (.string s) st =
          some (.ok (.string s, { st with content := st.content ++ [s] }))) ∧
    (∀ (input : Value) (st : State),
        applyBuiltin .location input st = some (.ok (.int (st.content.length : Int), st))) ∧
    (interpret 4 contentThenLocation (initializeEnv 0).1 (initializeEnv 0).2).1 =
      some (.ok (.int 1, ⟨["x"], 0⟩)) :=
  ⟨fun _ _ => rfl, fun _ _ => rfl, rfl⟩

/-- C8: when the document-size parameter is nonzero, the percent builtin
ignores its argument and returns the truncating integer division of the log
length by the parameter, leaving the host state unchanged; when the
parameter is zero it does not return at all (modelled none — the division
panic), in particular it does not produce a language-level Error. -/
theorem percent_builtin_division (input : Value) (st : State) :
    (st.document_size ≠ 0 →
      applyBuiltin .percent input st =
        some (.ok (.int ((st.content.length / st.document_size : Nat) : Int), st))) ∧
    (st.document_size = 0 → applyBuiltin .percent input st = none) := by
  constructor <;> intro h <;> simp [applyBuiltin, h]

/-- C8 witness: log length 3 and parameter 2 give 1; parameter 0 traps. -/
theorem percent_builtin_division_witness :
    applyBuiltin .percent (.bool true) ⟨["a", "b", "c"], 2⟩ =
      some (.ok (.int 1, ⟨["a", "b", "c"], 2⟩)) ∧
    applyBuiltin .percent (.bool true) ⟨["a"], 0⟩ = none :=
  ⟨(percent_builtin_division (.bool true) ⟨["a", "b", "c"], 2⟩).1 (by decide),
   (percent_builtin_division (.bool true) ⟨["a"], 0⟩).2 rfl⟩

/-- C9: no builtin and no evaluation step modifies the document-size
parameter, so every pass of compile starting from parameter 0 finishes with
parameter 0 and the next pass again starts at 0; consequently the size
builtin returns Int 0 and the percent builtin divides by zero (trap) in
every pass. -/
theorem document_size_parameter_never_modified :
    (∀ (name : BuiltinName) (input : Value) (st : State) (v : Value) (st' : State),
        applyBuiltin name input st = some (.ok (v, st')) →
        st'.document_size = st.document_size) ∧
    (∀ (fuel : Nat) (ast : Ast) (ctx : Context) (st : State) (v : Value) (st' : State),
        (interpret fuel ast ctx st).1 = some (.ok (v, st')) →
        st'.document_size = st.document_size) ∧
    (∀ (fuel : Nat) (ast : Ast) (v : Value) (st' : State),
        (interpret fuel ast (initializeEnv 0).1 (initializeEnv 0).2).1 = some (.ok (v, st')) →
        st'.document_size = 0) ∧
    (∀ (fuel : Nat) (ast : Ast) (n : Nat) (out : Option (List String)) (v : Value) (st' : State),
        (interpret fuel ast (initializeEnv 0).1 (initializeEnv 0).2).1 = some (.ok (v, st')) →
        out ≠ some st'.content →
        compileAux fuel ast (n + 1) 0 out = compileAux fuel ast n 0 (some st'.content)) ∧
    (∀ (input : Value) (st : State), st.document_size = 0 →
        applyBuiltin .size input st = some (.ok (.int 0, st))) ∧
    (∀ (input : Value) (st : State), st.document_size = 0 →
        applyBuiltin .percent input st = none) := by
  refine ⟨applyBuiltin_document_size, interpret_document_size_eq, ?_, ?_, ?_, ?_⟩
  · intro fuel ast v st' h
    exact interpret_document_size_eq fuel ast (initializeEnv 0).1 (initializeEnv 0).2 v st' h
  · intro fuel ast n out v st' h hne
    have hds : st'.document_size = 0 :=
      interpret_document_size_eq fuel ast (initializeEnv 0).1 (initializeEnv 0).2 v st' h
    rw [compileAux_step fuel ast n 0 out v st' h hne, hds]
  · intro input st h
    simp [applyBuiltin, h]
  · intro input st h
    simp [applyBuiltin, h]

/-- C9 witness: the content builtin leaves the parameter unchanged on a
concrete call. -/
theorem document_size_parameter_never_modified_witness :
    (⟨["x"], 5⟩ : State).document_size = (⟨[], 5⟩ : State).document_size :=
  document_size_parameter_never_modified.1 .content (.string "x") ⟨[], 5⟩
    (.string "x") ⟨["x"], 5⟩ rfl

/-- C10: interpret leaves the environment it was given exactly as it found
it, on every outcome (success, error, or no normal return): the context
value threaded back to the caller equals the one passed in, so evaluation
never adds, removes, or permanently rebinds a variable in the caller's
environment. -/
theorem interpret_preserves_environment (fuel : Nat) (ast : Ast) (ctx : Context)
    (st : State) : (interpret fuel ast ctx st).2 = ctx :=
  interpret_context_eq fuel ast ctx st

end ToyEff
